import Mathlib

/-!
Shallow embedding of the protocol-decoding core of the `racoon` HTTP/WebSocket
server (Rust), together with theorems settling the frozen claims about it.

Conventions of the embedding:
* Rust `u8` bytes are `Nat`s; byte buffers (`Vec<u8>`, `&[u8]`) are `List Nat`.
* Rust `String`/`&str` values are Lean `String`s; `String::from_utf8_lossy`
  is modelled by an explicit UTF-8 decoder with replacement characters, and
  `str::to_lowercase` by ASCII lowercasing (all inputs considered here are
  ASCII, where the two agree).
* The byte stream (`core/stream/mod.rs`, `TcpStreamWrapper` semantics) is a
  record of the one-slot pushback buffer, the list of chunks the transport
  will deliver (one per physical read; the transport closing afterwards), and
  the negotiated buffer size.  `read_chunk` returns the pushback first, a
  zero-byte physical read surfaces as a `BrokenPipe`-class error, and an
  exhausted chunk list models the peer having closed the connection.
* Rust loops whose termination is a semantic property of the stream are
  embedded as fuel-indexed recursions; every wrapper instantiates the fuel
  with a bound (one unit per `read_chunk` call plus one) that makes the
  artificial out-of-fuel outcome unreachable, so the embedded function agrees
  with the source loop.
* A Rust panic (slice out of bounds, `Option::unwrap` on `None`) is a
  distinguished outcome `Res.panicked`, never an `Err`.
-/

set_option maxRecDepth 100000

namespace Racoon

/-- One byte of a Rust `u8` buffer. -/
abbrev Byte := Nat

/-- ASCII lowercasing of one byte (agrees with `str::to_lowercase` on ASCII). -/
def asciiLower (b : Byte) : Byte := if 65 ≤ b ∧ b ≤ 90 then b + 32 else b

/-- The UTF-8 bytes of an ASCII string literal (used to embed Rust byte-string
    constants such as `b"\r\n\r\n"`). -/
def strBytes (s : String) : List Byte := s.toList.map Char.toNat

/-- UTF-8 encoding of one scalar value (mirrors the standard encoder). -/
def utf8EncodeCh (c : Char) : List Byte :=
  let n := c.toNat
  if n < 0x80 then [n]
  else if n < 0x800 then [0xC0 + n / 64, 0x80 + n % 64]
  else if n < 0x10000 then [0xE0 + n / 4096, 0x80 + n / 64 % 64, 0x80 + n % 64]
  else [0xF0 + n / 262144, 0x80 + n / 4096 % 64, 0x80 + n / 64 % 64, 0x80 + n % 64]

/-- Is a byte a UTF-8 continuation byte (`10xxxxxx`)? -/
def isCont (b : Byte) : Bool := 128 ≤ b ∧ b < 192

/-- Strict UTF-8 decoding, one scalar at a time: returns the decoded scalar and
    the bytes consumed, or `none` at an invalid or truncated sequence. -/
def utf8DecodeOne : List Byte → Option (Char × Nat × List Byte)
  | [] => none
  | b :: rest =>
    if b < 0x80 then some (Char.ofNat b, 1, rest)
    else if 0xC2 ≤ b ∧ b ≤ 0xDF then
      match rest with
      | b2 :: rest2 =>
        if isCont b2 then some (Char.ofNat ((b - 0xC0) * 64 + (b2 - 0x80)), 2, rest2) else none
      | [] => none
    else if 0xE0 ≤ b ∧ b ≤ 0xEF then
      match rest with
      | b2 :: b3 :: rest3 =>
        if isCont b2 ∧ isCont b3 ∧ (b = 0xE0 → 0xA0 ≤ b2) ∧ (b = 0xED → b2 < 0xA0) then
          some (Char.ofNat ((b - 0xE0) * 4096 + (b2 - 0x80) * 64 + (b3 - 0x80)), 3, rest3)
        else none
      | _ => none
    else if 0xF0 ≤ b ∧ b ≤ 0xF4 then
      match rest with
      | b2 :: b3 :: b4 :: rest4 =>
        if isCont b2 ∧ isCont b3 ∧ isCont b4 ∧ (b = 0xF0 → 0x90 ≤ b2) ∧ (b = 0xF4 → b2 < 0x90) then
          some (Char.ofNat ((b - 0xF0) * 262144 + (b2 - 0x80) * 4096 + (b3 - 0x80) * 64 + (b4 - 0x80)), 4, rest4)
        else none
      | _ => none
    else none

/-- Lossy UTF-8 decoding (models `String::from_utf8_lossy`): an invalid byte is
    replaced by U+FFFD and decoding continues at the next byte. -/
def utf8LossyGo : Nat → List Byte → List Char
  | 0, _ => []
  | _ + 1, [] => []
  | fuel + 1, b :: rest =>
    match utf8DecodeOne (b :: rest) with
    | some (c, _, rest2) => c :: utf8LossyGo fuel rest2
    | none => Char.ofNat 0xFFFD :: utf8LossyGo fuel rest

/-- `String::from_utf8_lossy(bytes).to_string()`. -/
def utf8Lossy (bs : List Byte) : String := String.mk (utf8LossyGo bs.length bs)

/-- Strict UTF-8 decoding of a whole buffer (models `String::from_utf8`). -/
def utf8DecodeGo : Nat → List Byte → Option (List Char)
  | 0, _ => some []
  | _ + 1, [] => some []
  | fuel + 1, b :: rest =>
    match utf8DecodeOne (b :: rest) with
    | some (c, _, rest2) => (utf8DecodeGo fuel rest2).map (c :: ·)
    | none => none

def utf8Decode? (bs : List Byte) : Option String :=
  (utf8DecodeGo bs.length bs).map String.mk

/-- `buffer.windows(pat.len()).position(|w| w == pat)`: index of the first
    occurrence of `pat` as a contiguous sublist. -/
def findFirst {α : Type} [BEq α] (pat : List α) : List α → Option Nat
  | [] => if pat.isEmpty then some 0 else none
  | a :: t => if pat.isPrefixOf (a :: t) then some 0 else (findFirst pat t).map (· + 1)

/-! Structurally recursive counterparts of the `String` operations the source
    uses (`str::to_lowercase` restricted to ASCII, `str::trim`, `split`,
    `starts_with`, `str::parse::<usize>` on digit strings); the core library
    versions are not used because their well-founded recursion does not
    reduce. -/

def strToLower (s : String) : String := String.mk (s.toList.map Char.toLower)

def strTrim (s : String) : String :=
  String.mk (((s.toList.dropWhile Char.isWhitespace).reverse.dropWhile Char.isWhitespace).reverse)

def strStartsWith (s p : String) : Bool := p.toList.isPrefixOf s.toList

/-- Split on every occurrence of a non-empty separator (fuel: one separator of
    ≥ 1 consumed characters per step). -/
def splitSeq (sep : List Char) : Nat → List Char → List (List Char)
  | 0, l => [l]
  | fuel + 1, l =>
    match findFirst sep l with
    | some p => l.take p :: splitSeq sep fuel (l.drop (p + sep.length))
    | none => [l]

/-- `str::split(sep)` collected into a vector. -/
def strSplitOn (s sep : String) : List String :=
  if sep.toList.isEmpty then [s]
  else (splitSeq sep.toList (s.toList.length + 1) s.toList).map String.mk

/-- `str::parse::<usize>()` on plain digit strings. -/
def strToNat? (s : String) : Option Nat :=
  if s.toList ≠ [] ∧ s.toList.all Char.isDigit then
    some (s.toList.foldl (fun a c => a * 10 + (c.toNat - 48)) 0)
  else none

/-- Big-endian bytes of `v`, `k` bytes wide (models `uN::to_be_bytes`). -/
def toBe : Nat → Nat → List Byte
  | 0, _ => []
  | k + 1, v => toBe k (v / 256) ++ [v % 256]

/-- Big-endian value of a byte list (models `uN::from_be_bytes`). -/
def fromBe (bs : List Byte) : Nat := bs.foldl (fun a b => a * 256 + b) 0

/-- Outcome of running embedded Rust code: a value, a returned error, a Rust
    panic, or the unreachable fuel-exhaustion artifact of the embedding. -/
inductive Res (ε α : Type) where
  | ok (a : α)
  | err (e : ε)
  | panicked
  | outOfFuel
deriving Repr, DecidableEq

def Res.isOk {ε α : Type} : Res ε α → Bool
  | .ok _ => true
  | _ => false

/-! ## Byte stream (`src/core/stream/mod.rs`) -/

/-- I/O errors as far as the decoders distinguish them. -/
inductive IoErr where
  | brokenPipe
  | other (msg : String)
deriving Repr, DecidableEq

/-- `std::io::Error::to_string()` for the errors of the model. -/
def IoErr.toMsg : IoErr → String
  | .brokenPipe => "Read size is 0. Probably connection broken."
  | .other m => m

/-- State of one `TcpStreamWrapper`-style stream: the single pushback slot
    (`restored_payload`), the chunks the transport will still deliver (one per
    physical read; the list running out models the peer closing, which a real
    read surfaces as a zero-byte read), and the configured `buffer_size`. -/
structure StreamState where
  pushback : Option (List Byte)
  chunks : List (List Byte)
  bufSize : Nat
deriving Repr, DecidableEq

/-- `AbstractStream::read_chunk`: pushback first (cleared, even when empty),
    otherwise one physical read; a zero-byte read is a `BrokenPipe` error. -/
def read_chunk (s : StreamState) : Except IoErr (List Byte × StreamState) :=
  match s.pushback with
  | some p => .ok (p, { s with pushback := none })
  | none =>
    match s.chunks with
    | [] => .error .brokenPipe
    | c :: rest => if c.length = 0 then .error .brokenPipe else .ok (c, { s with chunks := rest })

/-- `AbstractStream::restore_payload`: overwrites the single pushback slot. -/
def restore_payload (s : StreamState) (bs : List Byte) : StreamState :=
  { s with pushback := some bs }

/-- `AbstractStream::restored_len`. -/
def restored_len (s : StreamState) : Nat :=
  match s.pushback with
  | some p => p.length
  | none => 0

/-- Number of successful `read_chunk` calls the stream can still serve; one
    loop iteration consumes one, so `reads s + 1` bounds any scan loop's
    iteration count and is the fuel every wrapper passes. -/
def reads (s : StreamState) : Nat :=
  (match s.pushback with | some _ => 1 | none => 0) + s.chunks.length

/-- Total number of bytes the stream can still deliver. -/
def flattenLen (s : StreamState) : Nat :=
  (match s.pushback with | some p => p.length | none => 0)
    + (s.chunks.map List.length).sum

/-! ## Form constraints (`src/core/forms/mod.rs`) -/

/-- `FormConstraints`; the `custom_max_sizes` `HashMap<String, usize>` is
    modelled as an association list (only keyed lookup is used). -/
structure FormConstraints where
  max_body_size : Nat
  max_header_size : Nat
  max_file_size : Nat
  max_value_size : Nat
  custom_max_sizes : List (String × Nat)
deriving Repr, DecidableEq

/-- `HashMap::get` on the association-list model. -/
def alistGet {α : Type} : List (String × α) → String → Option α
  | [], _ => none
  | e :: t, k => if e.1 = k then some e.2 else alistGet t k

/-- `FormConstraints::max_body_size(buffer_size)`. -/
def FormConstraints.maxBodySize (c : FormConstraints) (buffer_size : Nat) : Nat :=
  if buffer_size > c.max_body_size then buffer_size else c.max_body_size

/-- `FormConstraints::max_header_size(buffer_size)`. -/
def FormConstraints.maxHeaderSize (c : FormConstraints) (buffer_size : Nat) : Nat :=
  if buffer_size > c.max_header_size then buffer_size else c.max_header_size

/-- `FormConstraints::max_value_size(buffer_size)`. -/
def FormConstraints.maxValueSize (c : FormConstraints) (buffer_size : Nat) : Nat :=
  if buffer_size > c.max_value_size then buffer_size else c.max_value_size

/-- `FormConstraints::max_size_for_field(field_name, buffer_size)`. -/
def FormConstraints.maxSizeForField (c : FormConstraints) (field_name : String)
    (buffer_size : Nat) : Nat :=
  match alistGet c.custom_max_sizes field_name with
  | some max_size => if buffer_size > max_size then buffer_size else max_size
  | none => c.max_value_size

/-- `FormConstraints::max_size_for_file(field_name, buffer_size)`. -/
def FormConstraints.maxSizeForFile (c : FormConstraints) (field_name : String)
    (buffer_size : Nat) : Nat :=
  match alistGet c.custom_max_sizes field_name with
  | some max_size => if buffer_size > max_size then buffer_size else max_size
  | none => c.max_file_size

/-- `FormFieldError` (`src/core/forms/mod.rs`). -/
inductive FormFieldError where
  | MaxBodySizeExceed
  | MaxHeaderSizeExceed
  | MaxFileSizeExceed (field : String)
  | MaxValueSizeExceed (field : String)
  | Others (field : Option String) (msg : String) (critical : Bool)
deriving Repr, DecidableEq

/-- `RequestConstraints` (`src/core/server/mod.rs`). -/
structure RequestConstraints where
  max_request_header_size : Nat
  max_header_count : Nat
deriving Repr, DecidableEq

/-- `RequestConstraints::max_request_header_size(buffer_size)`. -/
def RequestConstraints.maxRequestHeaderSize (c : RequestConstraints) (buffer_size : Nat) : Nat :=
  if buffer_size > c.max_request_header_size then buffer_size else c.max_request_header_size

/-! ## Headers (`src/core/headers/mod.rs`)

`Headers = HashMap<String, Vec<Vec<u8>>>`, modelled as an association list in
insertion order (the real `HashMap` iterates in an unspecified order; every
order-sensitive statement below involves at most one matching key, where the
two agree). -/

abbrev Headers := List (String × List (List Byte))

/-- `HashMap::get` (exact, case-sensitive key). -/
def Headers.lookup (h : Headers) (name : String) : Option (List (List Byte)) :=
  alistGet h name

/-- `HeaderValue::value`: case-insensitive scan, first value of the first
    matching key that has one. -/
def Headers.value : Headers → String → Option String
  | [], _ => none
  | (key, values) :: t, name =>
    if strToLower key ≠ strToLower name then Headers.value t name
    else
      match values with
      | value_bytes :: _ => some (utf8Lossy value_bytes)
      | [] => Headers.value t name

/-- `HeaderValue::multiple_values`: for each matching key, pushes only
    `values.get(0)`. -/
def Headers.multipleValues : Headers → String → List String
  | [], _ => []
  | (key, values) :: t, name =>
    if strToLower key ≠ strToLower name then Headers.multipleValues t name
    else
      match values with
      | value_bytes :: _ => utf8Lossy value_bytes :: Headers.multipleValues t name
      | [] => Headers.multipleValues t name

/-- `HeaderValue::set`: clears the exact key's values and pushes the new one,
    or inserts the key. -/
def Headers.set : Headers → String → List Byte → Headers
  | [], name, value => [(name, [value])]
  | (key, values) :: t, name, value =>
    if key = name then (key, [value]) :: t
    else (key, values) :: Headers.set t name value

/-- `HeaderValue::set_multiple`: appends to the exact key's values, or inserts
    the key. -/
def Headers.setMultiple : Headers → String → List Byte → Headers
  | [], name, value => [(name, [value])]
  | (key, values) :: t, name, value =>
    if key = name then (key, values ++ [value]) :: t
    else (key, values) :: Headers.setMultiple t name value

/-- `headers::multipart_boundary`: splits the `Content-Type` value on `;`; with
    at least two segments it trims the second and calls
    `strip_prefix("boundary=").unwrap()` — a panic when the prefix is absent. -/
def multipart_boundary (content_type : String) : Res IoErr String :=
  let value := strSplitOn content_type ";"
  if 2 ≤ value.length then
    let content_type_text := strTrim ((value.get? 1).getD "")
    if strStartsWith content_type_text "boundary=" then
      .ok (content_type_text.drop "boundary=".length)
    else
      .panicked
  else
    .err (.other "Boundary missing.")

/-! ## WebSocket close-frame helpers (`src/core/websocket/mod.rs`) -/

/-- `WebSocket::close_code_from_payload`: decodes a big-endian `u16` only when
    the payload length is exactly 2, otherwise returns 0. -/
def close_code_from_payload (response : List Byte) : Nat :=
  if response.length = 2 then fromBe response else 0

/-- `WebSocket::close_message_from_payload`: the bytes after the first two as a
    lossy UTF-8 string, or a default message for payloads shorter than 3. -/
def close_message_from_payload (response : List Byte) : String :=
  if response.length < 3 then "No close message specified."
  else utf8Lossy (response.drop 2)

/-! ## `Res` plumbing -/

def Res.bind {ε α β : Type} : Res ε α → (α → Res ε β) → Res ε β
  | .ok a, f => f a
  | .err e, _ => .err e
  | .panicked, _ => .panicked
  | .outOfFuel, _ => .outOfFuel

instance {ε : Type} : Monad (Res ε) where
  pure := Res.ok
  bind := Res.bind

/-- Lift a returned `Result` into the outcome type. -/
def liftE {ε α : Type} : Except ε α → Res ε α
  | .ok a => .ok a
  | .error e => .err e

/-! ## Urlencoded decoding (`src/core/parser/mod.rs`, `params`) -/

/-- Value of one hex digit. -/
def hexVal (c : Char) : Option Nat :=
  if '0' ≤ c ∧ c ≤ '9' then some (c.toNat - '0'.toNat)
  else if 'a' ≤ c ∧ c ≤ 'f' then some (c.toNat - 'a'.toNat + 10)
  else if 'A' ≤ c ∧ c ≤ 'F' then some (c.toNat - 'A'.toNat + 10)
  else none

/-- Modelled from the spec: the external `urlencoding` crate's percent-decoder
    (RFC 3986) — `%XX` with two hex digits becomes one byte, any other
    character (including a `%` not followed by two hex digits) passes through
    as its UTF-8 bytes. -/
def pctDecodeBytes : Nat → List Char → List Byte
  | 0, _ => []
  | _ + 1, [] => []
  | fuel + 1, '%' :: h1 :: h2 :: rest =>
    match hexVal h1, hexVal h2 with
    | some a, some b => (a * 16 + b) :: pctDecodeBytes fuel rest
    | _, _ => utf8EncodeCh '%' ++ pctDecodeBytes fuel (h1 :: h2 :: rest)
  | fuel + 1, c :: rest => utf8EncodeCh c ++ pctDecodeBytes fuel rest

/-- Modelled from the spec: `urlencoding::decode` — percent-decode, then strict
    UTF-8 validation (`Err` exactly when the decoded bytes are invalid UTF-8). -/
def urlDecode (s : String) : Option String :=
  utf8Decode? (pctDecodeBytes s.toList.length s.toList)

/-- `HashMap::insert` on the association-list model (replaces or appends). -/
def alistInsert {α : Type} : List (String × α) → String → α → List (String × α)
  | [], k, v => [(k, v)]
  | (k', v') :: t, k, v => if k' = k then (k, v) :: t else (k', v') :: alistInsert t k v

/-- In-place update through `HashMap::get_mut` (key known to be present). -/
def alistSet {α : Type} (m : List (String × α)) (k : String) (v : α) : List (String × α) :=
  m.map fun e => if e.1 = k then (k, v) else e

/-- Query/body parameters: `HashMap<String, Vec<String>>` as an association
    list in insertion order. -/
abbrev UrlParams := List (String × List String)

/-- One `for value in values` iteration group of `params::parse_url_encoded`.
    Note the source checks membership under the *decoded* key but inserts the
    fresh empty vector under the *raw* key, then `unwrap`s a `get_mut` of the
    decoded key — a panic whenever the two differ and the decoded key is not
    yet present. -/
def pueGo : List String → UrlParams → Res Empty UrlParams
  | [], params => .ok params
  | value :: rest, params =>
    let key_values := strSplitOn value "="
    if 2 ≤ key_values.length then
      let name := (key_values.get? 0).getD ""
      let v := (key_values.get? 1).getD ""
      let name_formatted :=
        match urlDecode name with
        | some s => s
        | none => name
      let value_formatted :=
        match urlDecode v with
        | some s => s
        | none => v
      let params :=
        if (alistGet params name_formatted).isNone then alistInsert params name []
        else params
      match alistGet params name_formatted with
      | none => .panicked
      | some values => pueGo rest (alistSet params name_formatted (values ++ [value_formatted]))
    else pueGo rest params

/-- `params::parse_url_encoded`. -/
def parse_url_encoded (text : String) : Res Empty UrlParams :=
  if text.length = 0 then .ok []
  else pueGo (strSplitOn text "&") []

/-! ## WebSocket frame codec (`src/core/websocket/frame.rs`) -/

/-- `Frame`. -/
structure Frame where
  fin : Nat
  op_code : Nat
  payload : List Byte
deriving Repr, DecidableEq

/-- `reader::fin_bit_to_u8`. -/
def fin_bit_to_u8 (byte : Byte) : Nat := byte >>> 7

/-- `reader::opcode_bit_to_u8`. -/
def opcode_bit_to_u8 (byte : Byte) : Nat := byte &&& 0b00001111

/-- `reader::bit_mask_to_u8`. -/
def bit_mask_to_u8 (byte : Byte) : Nat := byte >>> 7

/-- `reader::payload_length_to_u8`. -/
def payload_length_to_u8 (byte : Byte) : Nat := byte &&& 0b01111111

/-- `reader::payload_length_to_u16`. -/
def payload_length_to_u16 (bytes : List Byte) : Except IoErr Nat :=
  if bytes.length ≠ 2 then
    .error (.other "Failed to convert payload length to u64. Bytes of size 2 is expected.")
  else .ok (fromBe bytes)

/-- `reader::payload_length_to_u64`. -/
def payload_length_to_u64 (bytes : List Byte) : Except IoErr Nat :=
  if bytes.length ≠ 8 then
    .error (.other "Failed to convert payload length to u64. Bytes of size 8 is expected.")
  else .ok (fromBe bytes)

/-- `while buffer.len() < target { buffer.extend(stream.read_chunk().await?) }`. -/
def fillGo : Nat → List Byte → Nat → StreamState → Res IoErr (List Byte × StreamState)
  | 0, _, _, _ => .outOfFuel
  | fuel + 1, buffer, target, s =>
    if buffer.length < target then
      match read_chunk s with
      | .error e => .err e
      | .ok (chunk, s1) => fillGo fuel (buffer ++ chunk) target s1
    else .ok (buffer, s)

def fill (buffer : List Byte) (target : Nat) (s : StreamState) :
    Res IoErr (List Byte × StreamState) :=
  fillGo (reads s + 1) buffer target s

/-- `reader::read_frame`.  Faithful details: the masking-key step performs at
    most one supplementary `read_chunk` (the source uses `if`, not `while`) and
    then slices `&buffer[..4]`, which panics when fewer than 4 bytes are
    buffered; the unmasking XOR runs over the whole buffer, including any
    over-read bytes of a following frame, before the excess is pushed back. -/
def read_frame (s : StreamState) (max_payload_size : Nat) : Res IoErr (Frame × StreamState) :=
  Res.bind (fill [] 2 s) fun r0 =>
  let buffer0 := r0.1
  let s0 := r0.2
  let first_byte := buffer0.getD 0 0
  let fin := fin_bit_to_u8 first_byte
  let op_code := opcode_bit_to_u8 first_byte
  let second_byte := buffer0.getD 1 0
  let mask_bit := bit_mask_to_u8 second_byte
  let payload_length := payload_length_to_u8 second_byte
  let buffer1 := buffer0.drop 2
  let tier : Res IoErr (Nat × List Byte × StreamState) :=
    if payload_length < 126 then .ok (payload_length, buffer1, s0)
    else if payload_length = 126 then
      Res.bind (fill buffer1 2 s0) fun r1 =>
        Res.bind (liftE (payload_length_to_u16 (r1.1.take 2))) fun n =>
          .ok (n, r1.1.drop 2, r1.2)
    else
      Res.bind (fill buffer1 8 s0) fun r1 =>
        Res.bind (liftE (payload_length_to_u64 (r1.1.take 8))) fun n =>
          .ok (n, r1.1.drop 8, r1.2)
  Res.bind tier fun r2 =>
  let actual_payload_length := r2.1
  let buffer2 := r2.2.1
  let s2 := r2.2.2
  let keyStep : Res IoErr (Option (List Byte) × List Byte × StreamState) :=
    if mask_bit = 1 then
      Res.bind
        (if buffer2.length < 4 then
          Res.bind (liftE (read_chunk s2)) fun rc => .ok (buffer2 ++ rc.1, rc.2)
        else .ok (buffer2, s2)) fun r3 =>
        if r3.1.length < 4 then .panicked
        else .ok (some (r3.1.take 4), r3.1.drop 4, r3.2)
    else .ok (none, buffer2, s2)
  Res.bind keyStep fun r4 =>
  let masking_key := r4.1
  let buffer3 := r4.2.1
  let s3 := r4.2.2
  if actual_payload_length > max_payload_size then
    .err (.other "Payload length is more than the maximum allowed size.")
  else
    Res.bind (fill buffer3 actual_payload_length s3) fun r5 =>
    let buffer4 :=
      match masking_key with
      | some key => r5.1.enum.map fun p => p.2 ^^^ key.getD (p.1 % 4) 0
      | none => r5.1
    if buffer4.length > actual_payload_length then
      .ok (⟨fin, op_code, buffer4.take actual_payload_length⟩,
        restore_payload r5.2 (buffer4.drop actual_payload_length))
    else .ok (⟨fin, op_code, buffer4⟩, r5.2)

/-- `builder::build_opt`; the fresh random 4-byte masking key drawn from
    `thread_rng` is a parameter of the embedding. -/
def build_opt (frame : Frame) (mask : Bool) (mask_bytes : List Byte) : List Byte :=
  let fin_byte := (frame.fin <<< 7) % 256
  let first_byte := fin_byte ||| frame.op_code
  let actual_payload_length := frame.payload.length
  let length_repr :=
    if actual_payload_length < 126 then
      [if mask then actual_payload_length ||| 0b10000000 else actual_payload_length]
    else if actual_payload_length < 2 ^ 16 then
      126 :: toBe 2 actual_payload_length
    else
      127 :: toBe 8 actual_payload_length
  let payload :=
    if mask then frame.payload.enum.map fun p => (p.2 ^^^ mask_bytes.getD (p.1 % 4) 0) % 256
    else frame.payload
  first_byte :: length_repr ++ (if mask then mask_bytes else []) ++ payload

/-- `builder::build` (server to client, unmasked). -/
def build (frame : Frame) : List Byte := build_opt frame false []

/-! ## Multipart decoder (`src/core/parser/multipart.rs`) -/

/-- `FormPart`; the `TempFile` handle is modelled by the bytes written to it. -/
structure FormPart where
  name : Option String
  value : Option String
  filename : Option String
  content_type : Option String
  file : Option (List Byte)
deriving Repr, DecidableEq

/-- `\w` of the `regex` crate (ASCII inputs): letters, digits, underscore. -/
def isWordChar (c : Char) : Bool := c.isAlphanum || c = '_'

/-- Matcher for the content-disposition attribute pattern: every
    non-overlapping, leftmost occurrence of `\w+="[^"]*"` as an
    (attribute, value) pair, in order (models `Regex::captures_iter`). -/
def regexCapturesGo : Nat → List Char → List (String × String)
  | 0, _ => []
  | _ + 1, [] => []
  | fuel + 1, c :: rest =>
    let cs := c :: rest
    let w := cs.takeWhile isWordChar
    if w = [] then regexCapturesGo fuel rest
    else
      match cs.drop w.length with
      | '=' :: '"' :: rest2 =>
        let v := rest2.takeWhile (· ≠ '"')
        match rest2.drop v.length with
        | '"' :: rest3 => (String.mk w, String.mk v) :: regexCapturesGo fuel rest3
        | _ => regexCapturesGo fuel rest
      | _ => regexCapturesGo fuel rest

/-- `parse_content_disposition_value`. -/
def parse_content_disposition_value (value : String) (form_part : FormPart) :
    Except String FormPart :=
  let value := strTrim value
  if ¬ strStartsWith value "form-data;" then
    .error "Not a valid Content-Deposition value for form part header"
  else
    let remaining := strTrim (value.drop "form-data;".length)
    let caps := regexCapturesGo remaining.toList.length remaining.toList
    let fp := caps.foldl
      (fun fp cap =>
        if cap.1 = "name" then { fp with name := some cap.2 }
        else if cap.1 = "filename" then { fp with filename := some cap.2 }
        else fp)
      form_part
    if fp.name.isNone then .error "Field name is missing in form part header."
    else .ok fp

/-- `parse_form_part_header_line` (`splitn(2, ":")` keeps everything after the
    first colon in the second part). -/
def parse_form_part_header_line (header_line : List Byte) (form_part : FormPart) :
    Except String FormPart :=
  let s := utf8Lossy header_line
  let parts := strSplitOn s ":"
  if parts.length < 2 then .ok form_part
  else
    let header_name := strTrim ((parts.get? 0).getD "")
    let header_value := String.intercalate ":" (parts.drop 1)
    if strToLower header_name = "content-disposition" then
      parse_content_disposition_value header_value form_part
    else if strToLower header_name = "content-type" then
      .ok { form_part with content_type := some (strTrim header_value) }
    else .ok form_part

/-- Line loop of `parse_form_part_header` (each iteration consumes one
    `\r\n`-terminated line, at least 2 bytes, so `length + 1` fuel suffices). -/
def pfhGo : Nat → List Byte → FormPart → Res FormFieldError FormPart
  | 0, _, _ => .outOfFuel
  | fuel + 1, bytes, form_part =>
    match findFirst (strBytes "\r\n") bytes with
    | some position =>
      match parse_form_part_header_line (bytes.take position) form_part with
      | .ok fp => pfhGo fuel (bytes.drop (position + 2)) fp
      | .error msg => .err (.Others none msg true)
    | none => .ok form_part

/-- `parse_form_part_header`. -/
def parse_form_part_header (header_bytes : List Byte) : Res FormFieldError FormPart :=
  let hb :=
    if (strBytes "\r\n").isSuffixOf header_bytes then header_bytes
    else header_bytes ++ strBytes "\r\n"
  pfhGo (hb.length + 1) hb ⟨none, none, none, none, none⟩

/-- `MultipartParser`. -/
structure MultipartParser where
  stream : StreamState
  form_constraints : FormConstraints
  boundary : String
  allow_next_header_read : Bool
  first_header_scanned : Bool
deriving Repr, DecidableEq

/-- `MultipartParser::from` (the panic of `multipart_boundary` propagates). -/
def MultipartParser.from (stream : StreamState) (headers : Headers)
    (form_constraints : FormConstraints) : Res IoErr MultipartParser := do
  match headers.value "content-type" with
  | none => Res.err (.other "Content-Type header is missing.")
  | some content_type => do
    let boundary ← multipart_boundary content_type
    pure ⟨stream, form_constraints, boundary, true, false⟩

/-- First loop of `next_form_header`: fetch at least `scan_boundary` bytes. -/
def nfhFetchGo : Nat → List Byte → Nat → StreamState → List Byte →
    Res FormFieldError (List Byte × Nat × StreamState)
  | 0, _, _, _, _ => .outOfFuel
  | fuel + 1, buffer, bytes_read, s, sb =>
    if buffer.length ≥ sb.length then .ok (buffer, bytes_read, s)
    else
      match read_chunk s with
      | .error e => .err (.Others none e.toMsg true)
      | .ok (chunk, s1) => nfhFetchGo fuel (buffer ++ chunk) (bytes_read + chunk.length) s1 sb

/-- Scan loop of `next_form_header`: ceiling check, then scan for `\r\n\r\n`,
    else read another chunk. -/
def nfhScanGo : Nat → List Byte → Nat → StreamState → Nat →
    Res FormFieldError (FormPart × StreamState)
  | 0, _, _, _, _ => .outOfFuel
  | fuel + 1, buffer, bytes_read, s, max_header_size =>
    if bytes_read > max_header_size then .err .MaxHeaderSizeExceed
    else
      match findFirst (strBytes "\r\n\r\n") buffer with
      | some position =>
        let form_part_header_bytes := buffer.take position
        let restore_bytes := buffer.drop (position + 4)
        let s1 := restore_payload s restore_bytes
        (parse_form_part_header form_part_header_bytes).bind fun fp => .ok (fp, s1)
      | none =>
        match read_chunk s with
        | .error e => .err (.Others none e.toMsg true)
        | .ok (chunk, s1) =>
          nfhScanGo fuel (buffer ++ chunk) (bytes_read + chunk.length) s1 max_header_size

/-- `MultipartParser::next_form_header`. -/
def next_form_header (mp : MultipartParser) : Res FormFieldError (FormPart × MultipartParser) := do
  if ¬ mp.allow_next_header_read then
    Res.err (.Others none "Form part body not read." true)
  else do
    let max_header_size := mp.form_constraints.maxHeaderSize mp.stream.bufSize
    let scan_boundary := "--" ++ mp.boundary ++ "\r\n"
    let scan_boundary_bytes := strBytes scan_boundary
    let (buffer, bytes_read, s) ←
      if ¬ mp.first_header_scanned then do
        let (buffer, bytes_read, s) ←
          nfhFetchGo (reads mp.stream + 1) [] 0 mp.stream scan_boundary_bytes
        if ¬ scan_boundary_bytes.isPrefixOf buffer then
          Res.err (.Others none ("Boundary does not start with " ++ scan_boundary) true)
        else
          pure (buffer.drop scan_boundary_bytes.length, bytes_read, s)
      else pure (([] : List Byte), 0, mp.stream)
    let (fp, s1) ← nfhScanGo (reads s + 1) buffer bytes_read s max_header_size
    pure (fp, { mp with stream := s1, allow_next_header_read := false,
                        first_header_scanned := true })

/-- Scan loop of `parse_value`: ceiling check, scan for `\r\n--{boundary}`,
    commit only with 4 lookahead bytes, else read another chunk.  The stray
    leading-CRLF normalization compares the *prefix* `to_copy[..len-2]` with
    `\r\n` and then shortens the kept range by one byte, exactly as written. -/
def pvGo : Nat → List Byte → Nat → StreamState → List Byte → Nat → String →
    Res FormFieldError (Bool × String × StreamState)
  | 0, _, _, _, _, _, _ => .outOfFuel
  | fuel + 1, buffer, bytes_read, s, scan_boundary_bytes, max_value_size, field_name =>
    if bytes_read > max_value_size then .err (.MaxValueSizeExceed field_name)
    else
      let commit? :=
        match findFirst scan_boundary_bytes buffer with
        | some position =>
          if buffer.length ≥ position + scan_boundary_bytes.length + 4 then
            let to_copy := buffer.take position
            let to_copy_range :=
              if to_copy.length > 1 ∧ to_copy.take (to_copy.length - 2) = strBytes "\r\n" then
                to_copy.length - 1
              else to_copy.length
            let value := utf8Lossy (to_copy.take to_copy_range)
            let buffer2 := buffer.drop (position + scan_boundary_bytes.length)
            if buffer2.take 4 = strBytes "--\r\n" then
              some (Res.ok (true, value, s))
            else
              some (Res.ok (false, value, restore_payload s (buffer2.drop 2)))
          else none
        | none => none
      match commit? with
      | some r => r
      | none =>
        match read_chunk s with
        | .error e => .err (.Others none e.toMsg true)
        | .ok (chunk, s1) =>
          pvGo fuel (buffer ++ chunk) (bytes_read + chunk.length) s1
            scan_boundary_bytes max_value_size field_name

/-- Scan loop of `parse_file`.  When no commit happens this iteration, the copy
    step flushes everything except the last `terminator.len()` bytes of the
    scan buffer to the temp file — even when a terminator was found but lacked
    lookahead — then reads another chunk. -/
def pfGo : Nat → List Byte → Nat → List Byte → StreamState → List Byte → Nat → String →
    Res FormFieldError (Bool × List Byte × StreamState)
  | 0, _, _, _, _, _, _, _ => .outOfFuel
  | fuel + 1, scan_buffer, bytes_read, temp_file, s, value_terminator_bytes, max_file_size,
      field_name =>
    if bytes_read > max_file_size then .err (.MaxFileSizeExceed field_name)
    else
      let commit? :=
        match findFirst value_terminator_bytes scan_buffer with
        | some matched_position =>
          if scan_buffer.length ≥ matched_position + value_terminator_bytes.length + 4 then
            let temp_file2 := temp_file ++ scan_buffer.take matched_position
            let sb2 := scan_buffer.drop (matched_position + value_terminator_bytes.length)
            if sb2.take 4 = strBytes "--\r\n" then
              some (Res.ok (true, temp_file2, s))
            else
              some (Res.ok (false, temp_file2, restore_payload s (sb2.drop 2)))
          else none
        | none => none
      match commit? with
      | some r => r
      | none =>
        let (scan_buffer, temp_file) :=
          if scan_buffer.length > value_terminator_bytes.length then
            (scan_buffer.drop (scan_buffer.length - value_terminator_bytes.length),
              temp_file ++ scan_buffer.take (scan_buffer.length - value_terminator_bytes.length))
          else (scan_buffer, temp_file)
        match read_chunk s with
        | .error e => .err (.Others none e.toMsg true)
        | .ok (chunk, s1) =>
          pfGo fuel (scan_buffer ++ chunk) (bytes_read + chunk.length) temp_file s1
            value_terminator_bytes max_file_size field_name

/-- `MultipartParser::parse_value`. -/
def MultipartParser.parse_value (mp : MultipartParser) (form_part : FormPart) :
    Res FormFieldError (Bool × FormPart × MultipartParser) := do
  match form_part.name with
  | none => Res.err (.Others none "Field name is missing." false)
  | some field_name => do
    let max_value_size := mp.form_constraints.maxSizeForField field_name mp.stream.bufSize
    let scan_boundary_bytes := strBytes ("\r\n--" ++ mp.boundary)
    let (done, value, s1) ←
      pvGo (reads mp.stream + 1) [] 0 mp.stream scan_boundary_bytes max_value_size field_name
    pure (done, { form_part with value := some value },
      { mp with stream := s1, allow_next_header_read := true })

/-- `MultipartParser::parse_file` (temp-file creation and writes cannot fail in
    the model; the file is its accumulated bytes). -/
def MultipartParser.parse_file (mp : MultipartParser) (form_part : FormPart) :
    Res FormFieldError (Bool × FormPart × MultipartParser) := do
  match form_part.name with
  | none => Res.err (.Others none "Field name is missing" false)
  | some field_name => do
    let max_file_size := mp.form_constraints.maxSizeForFile field_name mp.stream.bufSize
    let value_terminator_bytes := strBytes ("\r\n--" ++ mp.boundary)
    let (done, temp_file, s1) ←
      pfGo (reads mp.stream + 1) [] 0 [] mp.stream value_terminator_bytes max_file_size field_name
    pure (done, { form_part with file := some temp_file },
      { mp with stream := s1, allow_next_header_read := true })

/-- `MultipartParser::next_form_value`. -/
def next_form_value (mp : MultipartParser) (form_part : FormPart) :
    Res FormFieldError (Bool × FormPart × MultipartParser) :=
  if mp.allow_next_header_read then
    .err (.Others none "Form part header is not read." true)
  else if form_part.filename.isSome then mp.parse_file form_part
  else mp.parse_value form_part

/-- `FileField`: the filename it was uploaded under and the temp file bytes. -/
structure FileField where
  name : String
  content : List Byte
deriving Repr, DecidableEq

abbrev FormData := List (String × List String)
abbrev Files := List (String × List FileField)

/-- `if let Some(v) = m.get_mut(k) { v.push(x) } else { m.insert(k, vec![x]) }`. -/
def multiInsert {α : Type} (m : List (String × List α)) (k : String) (x : α) :
    List (String × List α) :=
  match alistGet m k with
  | some xs => alistSet m k (xs ++ [x])
  | none => m ++ [(k, [x])]

/-- Driving loop of `MultipartParser::parse` (fuel: every part consumes at
    least one byte of the stream, so `flattenLen + 1` iterations suffice). -/
def mpParseGo : Nat → MultipartParser → FormData → Files →
    Res FormFieldError (FormData × Files)
  | 0, _, _, _ => .outOfFuel
  | fuel + 1, mp, form_data, files => do
    let (form_part, mp) ← next_form_header mp
    let (parsing_completed, form_part, mp) ← next_form_value mp form_part
    match form_part.name with
    | none => Res.err (.Others none "Field name is missing." true)
    | some field_name =>
      match form_part.filename with
      | some filename =>
        match form_part.file with
        | none => Res.err (.Others (some field_name) "Parsing error: file is missing." true)
        | some content =>
          let files := multiInsert files field_name ⟨filename, content⟩
          if parsing_completed then Res.ok (form_data, files)
          else mpParseGo fuel mp form_data files
      | none =>
        let form_data :=
          match form_part.value with
          | some field_value => multiInsert form_data field_name field_value
          | none => form_data
        if parsing_completed then Res.ok (form_data, files)
        else mpParseGo fuel mp form_data files

/-- `MultipartParser::parse`. -/
def MultipartParser.parse (stream : StreamState) (form_constraints : FormConstraints)
    (headers : Headers) : Res FormFieldError (FormData × Files) :=
  match MultipartParser.from stream headers form_constraints with
  | .err e => .err (.Others none e.toMsg true)
  | .panicked => .panicked
  | .outOfFuel => .outOfFuel
  | .ok parser => mpParseGo (flattenLen stream + 1) parser [] []

/-! ## Request header reader (`src/core/parser/mod.rs`, `headers`) -/

/-- `RequestError` (`src/core/request/mod.rs`, the variants this reader uses). -/
inductive RequestError where
  | HeaderSizeExceed
  | Others (msg : String)
deriving Repr, DecidableEq

/-- `RequestHeaderResult`. -/
structure RequestHeaderResult where
  method : Option String
  http_version : Option Nat
  raw_path : Option String
  headers : Headers
deriving Repr, DecidableEq

/-- Outcome of one `httparse::Request::parse` attempt. -/
inductive HttparseResult where
  | complete (body_start : Nat) (method : Option String) (path : Option String)
      (version : Option Nat) (headers : List (String × List Byte))
  | incomplete
  | errored
deriving Repr, DecidableEq

/-- Split a byte buffer on `\r\n` (fuel: one line of ≥ 2 consumed bytes per
    step). -/
def splitCrlf : Nat → List Byte → List (List Byte)
  | 0, l => [l]
  | fuel + 1, l =>
    match findFirst (strBytes "\r\n") l with
    | some p => l.take p :: splitCrlf fuel (l.drop (p + 2))
    | none => [l]

/-- Leading/trailing spaces and tabs removed from a header value. -/
def trimBytes (l : List Byte) : List Byte :=
  ((l.dropWhile fun b => b = 32 ∨ b = 9).reverse.dropWhile fun b => b = 32 ∨ b = 9).reverse

/-- One `Name: value` header line: name before the first colon, value after it
    with surrounding blanks trimmed. -/
def parseHeaderLine (l : List Byte) : Option (String × List Byte) :=
  match l.findIdx? (· = 58) with
  | none => none
  | some i => some (utf8Lossy (l.take i), trimBytes (l.drop (i + 1)))

/-- Modelled from the spec: the external `httparse` crate's request parsing as
    the spec describes HTTP/1.x framing — complete exactly when the
    `\r\n\r\n` terminator is present, with a three-token request line
    (`METHOD SP target SP HTTP/X`), header lines split at the first colon, a
    fixed header-slot allocation, and the offset just past the terminator
    reported for body pushback; anything malformed is a parse error, which the
    caller treats like an incomplete buffer. -/
def httparseReq (max_headers : Nat) (buffer : List Byte) : HttparseResult :=
  match findFirst (strBytes "\r\n\r\n") buffer with
  | none => .incomplete
  | some p =>
    let head := buffer.take p
    match splitCrlf (head.length + 1) head with
    | [] => .errored
    | request_line :: header_lines =>
      let toks := strSplitOn (utf8Lossy request_line) " "
      if toks.length ≠ 3 then .errored
      else
        let version? :=
          match (toks.get? 2).getD "" with
          | "HTTP/1.1" => some 1
          | "HTTP/1.0" => some 0
          | _ => none
        match version? with
        | none => .errored
        | some v =>
          if max_headers < header_lines.length then .errored
          else if (header_lines.map parseHeaderLine).all Option.isSome then
            .complete (p + 4) (some ((toks.get? 0).getD "")) (some ((toks.get? 1).getD ""))
              (some v) (header_lines.filterMap parseHeaderLine)
          else .errored

/-- Loop of `headers::read_request_headers`: read a chunk, account it, check
    the ceiling, then attempt a parse; on completion push the body bytes back. -/
def rrhGo : Nat → List Byte → Nat → StreamState → RequestConstraints → Nat →
    Res RequestError (RequestHeaderResult × StreamState)
  | 0, _, _, _, _, _ => .outOfFuel
  | fuel + 1, buffer, bytes_read, s, rc, max_request_header_size =>
    match read_chunk s with
    | .error e => .err (.Others e.toMsg)
    | .ok (chunk, s1) =>
      let bytes_read := bytes_read + chunk.length
      let buffer := buffer ++ chunk
      if bytes_read > max_request_header_size then .err .HeaderSizeExceed
      else
        match httparseReq rc.max_header_count buffer with
        | .incomplete => rrhGo fuel buffer bytes_read s1 rc max_request_header_size
        | .errored => rrhGo fuel buffer bytes_read s1 rc max_request_header_size
        | .complete matched_position method path version hs =>
          let s2 := restore_payload s1 (buffer.drop matched_position)
          let headers := hs.foldl (fun h nv => Headers.setMultiple h nv.1 nv.2) []
          .ok (⟨method, version, path, headers⟩, s2)

/-- `headers::read_request_headers`. -/
def read_request_headers (s : StreamState) (rc : RequestConstraints) :
    Res RequestError (RequestHeaderResult × StreamState) :=
  rrhGo (reads s + 1) [] 0 s rc (rc.maxRequestHeaderSize s.bufSize)

/-! ## Urlencoded body parser (`src/core/parser/urlencoded.rs`) -/

/-- `UrlEncodedParser`. -/
structure UrlEncodedParser where
  stream : StreamState
  form_constraints : FormConstraints
  content_length : Nat
deriving Repr, DecidableEq

/-- `UrlEncodedParser::from`.  (`urlencoded.rs` still constructs the two-field
    `Others` variant; the model supplies the `critical` flag as `true`.
    `value.parse::<usize>()` is modelled by `String.toNat?`, which agrees on
    plain digit strings.) -/
def UrlEncodedParser.from (stream : StreamState) (headers : Headers)
    (form_constraints : FormConstraints) : Except FormFieldError UrlEncodedParser :=
  match headers.value "Content-Length" with
  | none => .error (.Others none "Content-Length header is missing." true)
  | some value =>
    match strToNat? value with
    | none => .error (.Others none "Invalid content length header." true)
    | some content_length => .ok ⟨stream, form_constraints, content_length⟩

/-- Accumulation loop of `read_query_params_from_stream`. -/
def uepGo : Nat → List Byte → StreamState → Nat → Res FormFieldError (UrlParams × StreamState)
  | 0, _, _, _ => .outOfFuel
  | fuel + 1, buffer, s, content_length =>
    if buffer.length ≥ content_length then
      match parse_url_encoded (utf8Lossy buffer) with
      | .ok params => .ok (params, s)
      | .err e => e.elim
      | .panicked => .panicked
      | .outOfFuel => .outOfFuel
    else
      match read_chunk s with
      | .error e => .err (.Others none e.toMsg true)
      | .ok (chunk, s1) => uepGo fuel (buffer ++ chunk) s1 content_length

/-- `UrlEncodedParser::read_query_params_from_stream`. -/
def read_query_params_from_stream (p : UrlEncodedParser) :
    Res FormFieldError (UrlParams × StreamState) :=
  let max_body_size := p.form_constraints.maxBodySize p.stream.bufSize
  if p.content_length > max_body_size then .err .MaxBodySizeExceed
  else uepGo (reads p.stream + 1) [] p.stream p.content_length

/-- `UrlEncodedParser::parse`. -/
def UrlEncodedParser.parse (stream : StreamState) (headers : Headers)
    (form_constraints : FormConstraints) : Res FormFieldError UrlParams :=
  match UrlEncodedParser.from stream headers form_constraints with
  | .error e => .err e
  | .ok parser => (read_query_params_from_stream parser).bind fun pr => .ok pr.1

/-! ## Helper lemmas -/

theorem lookup_set (h : Headers) (n : String) (v : List Byte) :
    Headers.lookup (Headers.set h n v) n = some [v] := by
  induction h with
  | nil => simp [Headers.set, Headers.lookup, alistGet]
  | cons e t ih =>
    obtain ⟨k, vs⟩ := e
    by_cases hk : k = n
    · subst hk
      simp [Headers.set, Headers.lookup, alistGet]
    · simpa [Headers.set, Headers.lookup, alistGet, hk] using ih

theorem lookup_setMultiple (h : Headers) (n : String) (v : List Byte) :
    Headers.lookup (Headers.setMultiple h n v) n
      = some ((Headers.lookup h n).getD [] ++ [v]) := by
  induction h with
  | nil => simp [Headers.setMultiple, Headers.lookup, alistGet]
  | cons e t ih =>
    obtain ⟨k, vs⟩ := e
    by_cases hk : k = n
    · subst hk
      simp [Headers.setMultiple, Headers.lookup, alistGet]
    · simpa [Headers.setMultiple, Headers.lookup, alistGet, hk] using ih

theorem ite_gt_eq_max (a b : Nat) : (if b > a then b else a) = max a b := by
  rcases Nat.le_total a b with h | h
  · rw [max_eq_right h]
    split <;> omega
  · rw [max_eq_left h]
    split <;> omega

@[simp] theorem res_bind_eq {ε α β : Type} (x : Res ε α) (f : α → Res ε β) :
    x >>= f = Res.bind x f := rfl

@[simp] theorem res_pure_eq {ε α : Type} (a : α) : (pure a : Res ε α) = Res.ok a := rfl

@[simp] theorem Res.bind_ok {ε α β : Type} (a : α) (f : α → Res ε β) :
    Res.bind (.ok a) f = f a := rfl

@[simp] theorem Res.bind_err {ε α β : Type} (e : ε) (f : α → Res ε β) :
    Res.bind (.err e) f = .err e := rfl

theorem fill_enough (buffer : List Byte) (target : Nat) (s : StreamState)
    (h : target ≤ buffer.length) : fill buffer target s = .ok (buffer, s) := by
  simp [fill, fillGo, Nat.not_lt.mpr h]

theorem fill_single (c : List Byte) (target bs : Nat) (h0 : c ≠ []) (ht : 0 < target)
    (h : target ≤ c.length) :
    fill [] target ⟨none, [c], bs⟩ = .ok (c, ⟨none, [], bs⟩) := by
  have hne : ¬ c.length = 0 := by simpa using h0
  simp [fill, reads, fillGo, read_chunk, hne, ht, Nat.not_lt.mpr h]

theorem first_byte_fin (fin op : Nat) (hf : fin < 2) (ho : op < 16) :
    fin_bit_to_u8 (((fin <<< 7) % 256) ||| op) = fin := by
  interval_cases fin <;> interval_cases op <;> decide

theorem first_byte_op (fin op : Nat) (hf : fin < 2) (ho : op < 16) :
    opcode_bit_to_u8 (((fin <<< 7) % 256) ||| op) = op := by
  interval_cases fin <;> interval_cases op <;> decide

theorem payload_len_u8_small (L : Nat) (h : L < 126) : payload_length_to_u8 L = L := by
  unfold payload_length_to_u8
  have h127 : L &&& 127 = L % 128 := by
    simpa using Nat.and_pow_two_sub_one_eq_mod L 7
  simpa [h127] using Nat.mod_eq_of_lt (show L < 128 by omega)

theorem mask_bit_small (L : Nat) (h : L < 128) : bit_mask_to_u8 L = 0 := by
  unfold bit_mask_to_u8
  rw [Nat.shiftRight_eq_div_pow]
  exact Nat.div_eq_of_lt (by norm_num; omega)

theorem toBe_length (k v : Nat) : (toBe k v).length = k := by
  induction k generalizing v with
  | zero => rfl
  | succ k ih => simp [toBe, ih]

theorem fromBe_append (l : List Byte) (b : Byte) :
    fromBe (l ++ [b]) = fromBe l * 256 + b := by
  simp [fromBe, List.foldl_append]

theorem fromBe_toBe (k v : Nat) (h : v < 256 ^ k) : fromBe (toBe k v) = v := by
  induction k generalizing v with
  | zero =>
    simp [toBe, fromBe]
    omega
  | succ k ih =>
    have hdiv : v / 256 < 256 ^ k := by
      rw [Nat.div_lt_iff_lt_mul (by norm_num)]
      calc v < 256 ^ (k + 1) := h
        _ = 256 ^ k * 256 := by ring
    rw [toBe, fromBe_append, ih _ hdiv]
    omega

theorem take_append_len {α : Type} (l1 l2 : List α) (n : Nat) (h : l1.length = n) :
    (l1 ++ l2).take n = l1 := by
  subst h
  exact List.take_left l1 l2

theorem drop_append_len {α : Type} (l1 l2 : List α) (n : Nat) (h : l1.length = n) :
    (l1 ++ l2).drop n = l2 := by
  subst h
  exact List.drop_left l1 l2

theorem strBytes_append (a b : String) : strBytes (a ++ b) = strBytes a ++ strBytes b := by
  simp [strBytes, String.toList, String.data_append]

/-! ## Claim theorems -/

/-- C1: the claim — `MultipartParser::parse` yields the same field/file maps
    under every physical chunking of a valid multipart body — fails on the
    code: the spec's concrete §8 body parses in one chunk to
    `name ↦ John` plus the file `a.txt` with content `Hi`, but delivered in
    1-byte chunks the file copy step flushes part of an incompletely
    confirmed `\r\n--boundary` terminator into the temp file, the terminator
    is never found again, and parsing dies at end of stream with a read error
    instead of returning the same maps. -/
theorem C1_multipart_chunking_divergence :
    MultipartParser.parse
        ⟨none, [strBytes "--B\r\nContent-Disposition: form-data; name=\"name\"\r\n\r\nJohn\r\n--B\r\nContent-Disposition: form-data; name=\"file\"; filename=\"a.txt\"\r\nContent-Type: text/plain\r\n\r\nHi\r\n--B--\r\n"], 1024⟩
        ⟨500000, 500000, 500000, 500000, []⟩
        [("Content-Type", [strBytes "multipart/form-data; boundary=B"])]
      = Res.ok ([("name", ["John"])], [("file", [⟨"a.txt", strBytes "Hi"⟩])]) ∧
    MultipartParser.parse
        ⟨none, (strBytes "--B\r\nContent-Disposition: form-data; name=\"name\"\r\n\r\nJohn\r\n--B\r\nContent-Disposition: form-data; name=\"file\"; filename=\"a.txt\"\r\nContent-Type: text/plain\r\n\r\nHi\r\n--B--\r\n").map (fun b => [b]), 1⟩
        ⟨500000, 500000, 500000, 500000, []⟩
        [("Content-Type", [strBytes "multipart/form-data; boundary=B"])]
      = Res.err (.Others none "Read size is 0. Probably connection broken." true) := by
  constructor <;> (set_option maxRecDepth 100000 in decide)

/-- C2: the claim — two back-to-back frames, masked or unmasked, decode
    intact with an empty pushback slot afterwards — fails on the code for
    masked frames (contradicting the repository's own
    `test_read_multiple_frames`): the unmasking XOR runs over the over-read
    bytes of the second frame with the *first* frame's key before they are
    pushed back, so the second `read_frame` decodes corrupted bytes (here a
    masked `PING` text frame, opcode 9, comes back as opcode 8).  The
    unmasked pair does decode intact with an empty slot, as the last
    conjunct records. -/
theorem C2_two_frame_pushback_corrupted :
    read_frame
        ⟨none, [build_opt ⟨1, 1, strBytes "Hello World"⟩ true [0, 0, 0, 1]
                  ++ build_opt ⟨1, 9, strBytes "PING"⟩ true [0, 0, 0, 0]], 1024⟩ 500
      = Res.ok (⟨1, 1, strBytes "Hello World"⟩,
          ⟨some [136, 132, 0, 0, 1, 0, 80, 73, 79, 71], [], 1024⟩) ∧
    [136, 132, 0, 0, 1, 0, 80, 73, 79, 71]
      ≠ build_opt ⟨1, 9, strBytes "PING"⟩ true [0, 0, 0, 0] ∧
    ((read_frame
        ⟨none, [build_opt ⟨1, 1, strBytes "Hello World"⟩ true [0, 0, 0, 1]
                  ++ build_opt ⟨1, 9, strBytes "PING"⟩ true [0, 0, 0, 0]], 1024⟩ 500).bind
      fun p => read_frame p.2 500)
      = Res.ok (⟨1, 8, strBytes "PING"⟩, ⟨none, [], 1024⟩) ∧
    (⟨1, 8, strBytes "PING"⟩ : Frame) ≠ ⟨1, 9, strBytes "PING"⟩ ∧
    ((read_frame
        ⟨none, [build ⟨1, 1, strBytes "Hello World"⟩ ++ build ⟨1, 9, strBytes "PING"⟩], 1024⟩
        500).bind fun p => read_frame p.2 500)
      = Res.ok (⟨1, 9, strBytes "PING"⟩, ⟨none, [], 1024⟩) := by
  refine ⟨by decide, by decide, by decide, by decide, by decide⟩

/-- C3 (counterexample): the claim says every ceiling accessor returns
    `max(configured_ceiling, buffer_size)`, but
    `max_size_for_field` with no per-field override returns the configured
    default (5) even when the buffer size (10) is larger. -/
theorem C3_ceiling_floor_counterexample :
    FormConstraints.maxSizeForField ⟨100, 100, 100, 5, []⟩ "x" 10 = 5 ∧
    max 5 10 = 10 ∧ (5 : Nat) ≠ 10 := by
  decide

/-- C3 (amended): the three global accessors (`max_body_size`,
    `max_header_size`, `max_value_size`) do return
    `max(configured_ceiling, buffer_size)`; the per-field accessors
    (`max_size_for_field`, `max_size_for_file`) apply that floor only when a
    per-field override exists for the field name, and otherwise return the
    configured default value/file ceiling without consulting the buffer
    size. -/
theorem C3_ceiling_floor_amended (c : FormConstraints) (f : String) (bs : Nat) :
    c.maxBodySize bs = max c.max_body_size bs ∧
    c.maxHeaderSize bs = max c.max_header_size bs ∧
    c.maxValueSize bs = max c.max_value_size bs ∧
    (∀ m, alistGet c.custom_max_sizes f = some m →
      c.maxSizeForField f bs = max m bs ∧ c.maxSizeForFile f bs = max m bs) ∧
    (alistGet c.custom_max_sizes f = none →
      c.maxSizeForField f bs = c.max_value_size ∧ c.maxSizeForFile f bs = c.max_file_size) := by
  refine ⟨?_, ?_, ?_, ?_, ?_⟩
  · unfold FormConstraints.maxBodySize
    exact ite_gt_eq_max _ _
  · unfold FormConstraints.maxHeaderSize
    exact ite_gt_eq_max _ _
  · unfold FormConstraints.maxValueSize
    exact ite_gt_eq_max _ _
  · intro m hm
    unfold FormConstraints.maxSizeForField FormConstraints.maxSizeForFile
    rw [hm]
    exact ⟨ite_gt_eq_max m bs, ite_gt_eq_max m bs⟩
  · intro hm
    unfold FormConstraints.maxSizeForField FormConstraints.maxSizeForFile
    rw [hm]
    exact ⟨rfl, rfl⟩

theorem C3_ceiling_floor_witness :
    (alistGet (FormConstraints.mk 1 2 3 4 [("k", 7)]).custom_max_sizes "k" = some 7) ∧
    FormConstraints.maxBodySize ⟨1, 2, 3, 4, [("k", 7)]⟩ 10 = max 1 10 ∧
    FormConstraints.maxSizeForField ⟨1, 2, 3, 4, [("k", 7)]⟩ "k" 10 = max 7 10 ∧
    FormConstraints.maxSizeForFile ⟨1, 2, 3, 4, [("k", 7)]⟩ "k" 10 = max 7 10 := by
  have h := C3_ceiling_floor_amended ⟨1, 2, 3, 4, [("k", 7)]⟩ "k" 10
  have hk : alistGet (FormConstraints.mk 1 2 3 4 [("k", 7)]).custom_max_sizes "k" = some 7 := by
    decide
  exact ⟨hk, h.1, (h.2.2.2.1 7 hk).1, (h.2.2.2.1 7 hk).2⟩

/-- C5 (counterexample): the claim says a multiple-value lookup returns all
    values appended under one name; after two `set_multiple` appends under
    the exact name `Cookie`, both values are stored, yet `multiple_values`
    returns only the first. -/
theorem C5_headers_counterexample :
    Headers.multipleValues
        (Headers.setMultiple (Headers.setMultiple [] "Cookie" (strBytes "a=1"))
          "Cookie" (strBytes "b=2")) "Cookie"
      = ["a=1"] ∧
    ["a=1"] ≠ ["a=1", "b=2"] ∧
    Headers.lookup
        (Headers.setMultiple (Headers.setMultiple [] "Cookie" (strBytes "a=1"))
          "Cookie" (strBytes "b=2")) "Cookie"
      = some [strBytes "a=1", strBytes "b=2"] := by
  refine ⟨by decide, by decide, by decide⟩

/-- C5 (amended): lookup is case-insensitive while storage preserves the
    stored spelling; `set` replaces all values stored under the exact name;
    `set_multiple` appends to them; but `multiple_values` returns only the
    *first* stored value of each case-insensitively matching name, so values
    appended under one name beyond the first are stored yet not returned. -/
theorem C5_headers_amended (h : Headers) (n n' : String) (v v1 v2 : List Byte)
    (vs : List (List Byte)) :
    (strToLower n' = strToLower n →
      Headers.value (Headers.set [] n v) n' = some (utf8Lossy v)) ∧
    (strToLower n' ≠ strToLower n →
      Headers.value (Headers.set [] n v) n' = none) ∧
    Headers.set [] n v = [(n, [v])] ∧
    Headers.lookup (Headers.set (Headers.set h n v1) n v2) n = some [v2] ∧
    Headers.lookup (Headers.setMultiple h n v) n
      = some ((Headers.lookup h n).getD [] ++ [v]) ∧
    (strToLower n' = strToLower n →
      Headers.multipleValues [(n, v :: vs)] n' = [utf8Lossy v]) := by
  refine ⟨?_, ?_, rfl, lookup_set _ n v2, lookup_setMultiple h n v, ?_⟩
  · intro he
    simp [Headers.set, Headers.value, he]
  · intro hne
    simp [Headers.set, Headers.value, Ne.symm hne]
  · intro he
    simp [Headers.multipleValues, he]

theorem C5_headers_witness :
    (strToLower "cOOkie" = strToLower "Cookie") ∧
    Headers.value (Headers.set [] "Cookie" (strBytes "x")) "cOOkie"
      = some (utf8Lossy (strBytes "x")) ∧
    Headers.lookup
        (Headers.set (Headers.set [("A", [[1]])] "Cookie" (strBytes "x"))
          "Cookie" (strBytes "y")) "Cookie" = some [strBytes "y"] ∧
    Headers.multipleValues [("Cookie", [strBytes "x", strBytes "b"])] "cOOkie"
      = [utf8Lossy (strBytes "x")] := by
  have h := C5_headers_amended [("A", [[1]])] "Cookie" "cOOkie" (strBytes "x")
    (strBytes "x") (strBytes "y") [strBytes "b"]
  have he : (strToLower "cOOkie" = strToLower "Cookie") := by decide
  exact ⟨he, h.1 he, h.2.2.2.1, h.2.2.2.2.2 he⟩

/-- C6: the claim — `parse_url_encoded` never fails or aborts and stores
    values of repeated keys under the decoded key — fails on the code: for a
    well-formed pair whose key percent-decodes to something different from
    its raw spelling (here `a%20b=1`), the fresh empty vector is inserted
    under the *raw* key but looked up (`get_mut(..).unwrap()`) under the
    *decoded* key, a panic.  On pairs whose keys decode to themselves the
    described accumulation does hold, as the second conjunct records. -/
theorem C6_urlencoded_panic :
    parse_url_encoded "a%20b=1" = Res.panicked ∧
    parse_url_encoded "x=1&x=2&y=%20" = Res.ok [("x", ["1", "2"]), ("y", [" "])] := by
  constructor <;> decide

/-- C7 (counterexample): the claim says the close code is the big-endian
    16-bit integer of the first two payload bytes whenever the payload has at
    least 2 bytes; on the 3-byte payload `0x03 0xE8 0x41` the code returns 0,
    not 1000. -/
theorem C7_close_frame_counterexample :
    close_code_from_payload [3, 232, 65] = 0 ∧
    fromBe (List.take 2 [3, 232, 65]) = 1000 ∧
    (0 : Nat) ≠ 1000 := by
  refine ⟨by decide, by decide, by decide⟩

/-- C7 (amended): the close code is the big-endian 16-bit integer of the
    payload exactly when the payload length is 2, and 0 for every other
    length (including payloads longer than 2); the close reason is the UTF-8
    text after the first two bytes when the payload has at least 3 bytes and
    the default message otherwise; in particular the 2-byte payload
    `0x03 0xE8` yields close code 1000 with the default message. -/
theorem C7_close_frame_amended (p : List Byte) :
    (p.length = 2 → close_code_from_payload p = fromBe p) ∧
    (p.length ≠ 2 → close_code_from_payload p = 0) ∧
    (3 ≤ p.length → close_message_from_payload p = utf8Lossy (p.drop 2)) ∧
    (p.length < 3 → close_message_from_payload p = "No close message specified.") ∧
    close_code_from_payload [3, 232] = 1000 ∧
    close_message_from_payload [3, 232] = "No close message specified." := by
  refine ⟨?_, ?_, ?_, ?_, by decide, by decide⟩
  · intro h2
    simp [close_code_from_payload, h2]
  · intro h2
    simp [close_code_from_payload, h2]
  · intro h3
    simp [close_message_from_payload]
    omega
  · intro h3
    simp [close_message_from_payload, h3]

theorem C7_close_frame_witness :
    (([3, 232, 72, 105] : List Byte).length ≠ 2) ∧
    close_code_from_payload [3, 232, 72, 105] = 0 ∧
    (3 ≤ ([3, 232, 72, 105] : List Byte).length) ∧
    close_message_from_payload [3, 232, 72, 105]
      = utf8Lossy (List.drop 2 [3, 232, 72, 105]) := by
  have h := C7_close_frame_amended [3, 232, 72, 105]
  exact ⟨by decide, h.2.1 (by decide), by decide, h.2.2.1 (by decide)⟩

/-- C9: the claim — `multipart_boundary` is total and never panics, in
    particular on `multipart/form-data; charset=utf-8` — fails on the code:
    with two `;`-segments whose second does not begin with `boundary=`, the
    `strip_prefix("boundary=").unwrap()` panics instead of returning the
    error the `io::Result` signature promises; the well-formed and the
    too-few-segments inputs behave as described. -/
theorem C9_boundary_panic :
    multipart_boundary "multipart/form-data; charset=utf-8" = Res.panicked ∧
    multipart_boundary "multipart/form-data; boundary=----123456" = Res.ok "----123456" ∧
    multipart_boundary "text/html" = Res.err (.other "Boundary missing.") := by
  refine ⟨by decide, by decide, by decide⟩

/-- C10: the claim — `read_frame` extracts the 4-byte masking key without
    going out of bounds under arbitrary chunk sizes — fails on the code: the
    key step performs at most one supplementary `read_chunk` (an `if` where
    every other step loops), so a well-formed masked frame delivered in
    1-byte chunks leaves a single buffered byte and the `&buffer[..4]` slice
    panics. -/
theorem C10_mask_key_panic :
    read_frame
        ⟨none, (build_opt ⟨1, 1, strBytes "Hi"⟩ true [1, 2, 3, 4]).map (fun b => [b]), 1⟩ 500
      = Res.panicked ∧
    read_frame ⟨none, [build_opt ⟨1, 1, strBytes "Hi"⟩ true [1, 2, 3, 4]], 1024⟩ 500
      = Res.ok (⟨1, 1, strBytes "Hi"⟩, ⟨none, [], 1024⟩) := by
  constructor <;> decide

/-- C8: for every FIN bit, every 4-bit opcode and every payload (in
    particular all lengths in {0, 1, 125, 126, 127, 65535, 65536}, each
    length-encoding tier included), `read_frame` applied to `build`'s output
    delivered as a stream returns a frame with the same FIN bit, opcode and
    payload, leaving the stream empty. -/
theorem C8_frame_roundtrip (fin op : Nat) (payload : List Byte) (maxp bs : Nat)
    (hf : fin < 2) (ho : op < 16) (hlen : payload.length < 2 ^ 64)
    (hmax : payload.length ≤ maxp) :
    read_frame ⟨none, [build ⟨fin, op, payload⟩], bs⟩ maxp
      = Res.ok (⟨fin, op, payload⟩, ⟨none, [], bs⟩) := by
  have hfb := first_byte_fin fin op hf ho
  have hob := first_byte_op fin op hf ho
  have hnotgt : ¬ payload.length > maxp := Nat.not_lt.mpr hmax
  rcases Nat.lt_or_ge payload.length 126 with h126 | h126
  · -- 7-bit length tier
    have hbuild : build ⟨fin, op, payload⟩
        = (((fin <<< 7) % 256) ||| op) :: payload.length :: payload := by
      simp [build, build_opt, h126]
    have hm := mask_bit_small payload.length (by omega)
    have hp := payload_len_u8_small payload.length h126
    have hfillp : fill payload payload.length ⟨none, [], bs⟩
        = .ok (payload, ⟨none, [], bs⟩) := fill_enough _ _ _ (le_refl _)
    rw [hbuild, read_frame,
      fill_single _ _ _ (by simp) (by omega) (by simp)]
    simp [hfb, hob, hm, hp, h126, hnotgt, hfillp]
  · rcases Nat.lt_or_ge payload.length (2 ^ 16) with h16 | h16
    · -- 16-bit length tier
      have h16' : payload.length < 65536 := by
        norm_num at h16
        exact h16
      have hbuild : build ⟨fin, op, payload⟩
          = (((fin <<< 7) % 256) ||| op) :: 126 :: (toBe 2 payload.length ++ payload) := by
        simp [build, build_opt, Nat.not_lt.mpr h126, h16']
      have hlen2 : (toBe 2 payload.length ++ payload).length = 2 + payload.length := by
        simp [toBe_length]
      have htk : (toBe 2 payload.length ++ payload).take 2 = toBe 2 payload.length :=
        take_append_len _ _ _ (toBe_length 2 _)
      have hdr : (toBe 2 payload.length ++ payload).drop 2 = payload :=
        drop_append_len _ _ _ (toBe_length 2 _)
      have hu16 : payload_length_to_u16 (toBe 2 payload.length) = .ok payload.length := by
        simp [payload_length_to_u16, toBe_length, fromBe_toBe 2 payload.length (by norm_num; omega)]
      have hfill2 : fill (toBe 2 payload.length ++ payload) 2 ⟨none, [], bs⟩
          = .ok (toBe 2 payload.length ++ payload, ⟨none, [], bs⟩) :=
        fill_enough _ _ _ (by rw [hlen2]; omega)
      have hfillp : fill payload payload.length ⟨none, [], bs⟩
          = .ok (payload, ⟨none, [], bs⟩) := fill_enough _ _ _ (le_refl _)
      rw [hbuild, read_frame,
        fill_single _ _ _ (by simp) (by omega) (by simp)]
      simp [hfb, hob, show bit_mask_to_u8 126 = 0 from by decide,
        show payload_length_to_u8 126 = 126 from by decide,
        hfill2, htk, hdr, hu16, liftE, hfillp, hnotgt]
    · -- 64-bit length tier
      have h16' : ¬ payload.length < 65536 := by
        norm_num at h16
        omega
      have hbuild : build ⟨fin, op, payload⟩
          = (((fin <<< 7) % 256) ||| op) :: 127 :: (toBe 8 payload.length ++ payload) := by
        simp [build, build_opt, Nat.not_lt.mpr h126, h16']
      have hlen8 : (toBe 8 payload.length ++ payload).length = 8 + payload.length := by
        simp [toBe_length]
      have htk : (toBe 8 payload.length ++ payload).take 8 = toBe 8 payload.length :=
        take_append_len _ _ _ (toBe_length 8 _)
      have hdr : (toBe 8 payload.length ++ payload).drop 8 = payload :=
        drop_append_len _ _ _ (toBe_length 8 _)
      have hu64 : payload_length_to_u64 (toBe 8 payload.length) = .ok payload.length := by
        simp [payload_length_to_u64, toBe_length, fromBe_toBe 8 payload.length (by norm_num; omega)]
      have hfill8 : fill (toBe 8 payload.length ++ payload) 8 ⟨none, [], bs⟩
          = .ok (toBe 8 payload.length ++ payload, ⟨none, [], bs⟩) :=
        fill_enough _ _ _ (by rw [hlen8]; omega)
      have hfillp : fill payload payload.length ⟨none, [], bs⟩
          = .ok (payload, ⟨none, [], bs⟩) := fill_enough _ _ _ (le_refl _)
      rw [hbuild, read_frame,
        fill_single _ _ _ (by simp) (by omega) (by simp)]
      simp [hfb, hob, show bit_mask_to_u8 127 = 0 from by decide,
        show payload_length_to_u8 127 = 127 from by decide,
        hfill8, htk, hdr, hu64, liftE, hfillp, hnotgt]

/-- C4: boundary behavior of every configured ceiling.  For each ceiling —
    request-header size, multipart part-header size, multipart value size,
    multipart file size, urlencoded body size — an input whose measured size
    (bytes read; for the body ceiling, the declared `Content-Length`) exceeds
    the effective ceiling by exactly one byte fails with the corresponding
    size-exceeded error, and a well-formed input measuring exactly the
    ceiling succeeds.  (The floored ceilings take `max(configured,
    buffer_size)`; the hypotheses `bs ≤ cfg` pin the effective ceiling to the
    configured one, and deliveries keep each chunk within the buffer size.) -/
theorem C4_size_ceilings :
    -- request-header ceiling, one byte over
    (∀ (c1 c2 : List Byte) (cfg maxH bs : Nat),
      c1 ≠ [] → c2 ≠ [] → httparseReq maxH c1 = .incomplete →
      (c1 ++ c2).length = cfg + 1 → bs ≤ cfg →
      read_request_headers ⟨none, [c1, c2], bs⟩ ⟨cfg, maxH⟩ = .err .HeaderSizeExceed) ∧
    -- request-header ceiling, exactly at
    (∀ (B : List Byte) (cfg maxH bs n : Nat) (m p : Option String) (v : Option Nat)
        (hs : List (String × List Byte)),
      B ≠ [] → httparseReq maxH B = .complete n m p v hs →
      B.length = cfg → bs ≤ cfg →
      read_request_headers ⟨none, [B], bs⟩ ⟨cfg, maxH⟩
        = .ok (⟨m, v, p, hs.foldl (fun h nv => Headers.setMultiple h nv.1 nv.2) []⟩,
            restore_payload ⟨none, [], bs⟩ (B.drop n))) ∧
    -- multipart part-header ceiling, one byte over
    (∀ (c1 c2 sb : List Byte) (boundary : String) (cfg bs mb mf mv : Nat)
        (cu : List (String × Nat)),
      strBytes ("--" ++ boundary ++ "\r\n") = sb → 0 < sb.length →
      sb.length ≤ c1.length → sb.isPrefixOf c1 = true →
      findFirst (strBytes "\r\n\r\n") (c1.drop sb.length) = none →
      c2 ≠ [] → (c1 ++ c2).length = cfg + 1 → bs ≤ cfg →
      next_form_header ⟨⟨none, [c1, c2], bs⟩, ⟨mb, cfg, mf, mv, cu⟩, boundary, true, false⟩
        = .err .MaxHeaderSizeExceed) ∧
    -- multipart part-header ceiling, exactly at
    (∀ (B sb : List Byte) (boundary : String) (cfg bs mb mf mv : Nat)
        (cu : List (String × Nat)) (q : Nat) (fp : FormPart),
      strBytes ("--" ++ boundary ++ "\r\n") = sb → 0 < sb.length →
      sb.length ≤ B.length → sb.isPrefixOf B = true →
      findFirst (strBytes "\r\n\r\n") (B.drop sb.length) = some q →
      parse_form_part_header ((B.drop sb.length).take q) = .ok fp →
      B.length = cfg → bs ≤ cfg →
      next_form_header ⟨⟨none, [B], bs⟩, ⟨mb, cfg, mf, mv, cu⟩, boundary, true, false⟩
        = .ok (fp, ⟨restore_payload ⟨none, [], bs⟩ ((B.drop sb.length).drop (q + 4)),
            ⟨mb, cfg, mf, mv, cu⟩, boundary, false, true⟩)) ∧
    -- multipart value ceiling, one byte over
    (∀ (B : List Byte) (field boundary : String) (bs mb mh mf cfg : Nat),
      B ≠ [] → B.length = cfg + 1 →
      MultipartParser.parse_value
          ⟨⟨none, [B], bs⟩, ⟨mb, mh, mf, cfg, []⟩, boundary, false, false⟩
          ⟨some field, none, none, none, none⟩
        = .err (.MaxValueSizeExceed field)) ∧
    -- multipart value ceiling, exactly at
    (∀ (B tm : List Byte) (field boundary : String) (bs mb mh mf cfg q : Nat),
      strBytes ("\r\n--" ++ boundary) = tm → B ≠ [] →
      findFirst tm B = some q → q + tm.length + 4 ≤ B.length → B.length = cfg →
      (MultipartParser.parse_value
          ⟨⟨none, [B], bs⟩, ⟨mb, mh, mf, cfg, []⟩, boundary, false, false⟩
          ⟨some field, none, none, none, none⟩).isOk = true) ∧
    -- multipart file ceiling, one byte over
    (∀ (B : List Byte) (field fname boundary : String) (bs mb mh mv cfg : Nat),
      B ≠ [] → B.length = cfg + 1 →
      MultipartParser.parse_file
          ⟨⟨none, [B], bs⟩, ⟨mb, mh, cfg, mv, []⟩, boundary, false, false⟩
          ⟨some field, none, some fname, none, none⟩
        = .err (.MaxFileSizeExceed field)) ∧
    -- multipart file ceiling, exactly at
    (∀ (B tm : List Byte) (field fname boundary : String) (bs mb mh mv cfg q : Nat),
      strBytes ("\r\n--" ++ boundary) = tm → B ≠ [] →
      findFirst tm B = some q → q + tm.length + 4 ≤ B.length → B.length = cfg →
      (MultipartParser.parse_file
          ⟨⟨none, [B], bs⟩, ⟨mb, mh, cfg, mv, []⟩, boundary, false, false⟩
          ⟨some field, none, some fname, none, none⟩).isOk = true) ∧
    -- urlencoded body ceiling, declared length one byte over
    (∀ (s : StreamState) (mh mf mv : Nat) (cu : List (String × Nat)) (cfg : Nat),
      s.bufSize ≤ cfg →
      read_query_params_from_stream ⟨s, ⟨cfg, mh, mf, mv, cu⟩, cfg + 1⟩
        = .err .MaxBodySizeExceed) ∧
    -- urlencoded body ceiling, declared length exactly at
    (∀ (B : List Byte) (bs mh mf mv : Nat) (cu : List (String × Nat)) (cfg : Nat)
        (m : UrlParams),
      B ≠ [] → B.length = cfg → bs ≤ cfg → 0 < cfg →
      parse_url_encoded (utf8Lossy B) = .ok m →
      read_query_params_from_stream ⟨⟨none, [B], bs⟩, ⟨cfg, mh, mf, mv, cu⟩, cfg⟩
        = .ok (m, ⟨none, [], bs⟩)) := by
  refine ⟨?_, ?_, ?_, ?_, ?_, ?_, ?_, ?_, ?_, ?_⟩
  · -- request-header over
    intro c1 c2 cfg maxH bs h1 h2 hinc hlen hbs
    have hl1 : 0 < c1.length := List.length_pos.mpr h1
    have hl2 : 0 < c2.length := List.length_pos.mpr h2
    have hlen' : c1.length + c2.length = cfg + 1 := by simpa using hlen
    have hacc : RequestConstraints.maxRequestHeaderSize ⟨cfg, maxH⟩ bs = cfg := by
      unfold RequestConstraints.maxRequestHeaderSize
      rw [if_neg (show ¬ bs > cfg by omega)]
    unfold read_request_headers
    rw [hacc]
    simp [reads, rrhGo, read_chunk, show ¬ c1.length = 0 by omega,
      show ¬ c2.length = 0 by omega, hinc,
      show ¬ c1.length > cfg by omega, show c1.length + c2.length > cfg by omega]
  · -- request-header at
    intro B cfg maxH bs n m p v hs hB hcomp hlen hbs
    have hl : 0 < B.length := List.length_pos.mpr hB
    have hacc : RequestConstraints.maxRequestHeaderSize ⟨cfg, maxH⟩ bs = cfg := by
      unfold RequestConstraints.maxRequestHeaderSize
      rw [if_neg (show ¬ bs > cfg by omega)]
    unfold read_request_headers
    rw [hacc]
    simp [reads, rrhGo, read_chunk, show ¬ B.length = 0 by omega, hcomp,
      show ¬ B.length > cfg by omega]
  · -- multipart part-header over
    intro c1 c2 sb boundary cfg bs mb mf mv cu hsb hsbpos hsble hpre hscan h2 hlen hbs
    have hl1 : 0 < c1.length := by omega
    have hl2 : 0 < c2.length := List.length_pos.mpr h2
    have hlen' : c1.length + c2.length = cfg + 1 := by simpa using hlen
    have hacc : FormConstraints.maxHeaderSize ⟨mb, cfg, mf, mv, cu⟩ bs = cfg := by
      unfold FormConstraints.maxHeaderSize
      rw [if_neg (show ¬ bs > cfg by omega)]
    subst hsb
    have hpre2 : strBytes ("--" ++ boundary ++ "\r\n") <+: c1 := by
      simpa using hpre
    unfold next_form_header
    simp [hacc, reads, nfhFetchGo, nfhScanGo, read_chunk, show ¬ c1.length = 0 by omega,
      show ¬ c2.length = 0 by omega, h2,
      show ¬ (0 : Nat) ≥ (strBytes ("--" ++ boundary ++ "\r\n")).length by omega,
      hsble, hpre, hpre2, hscan,
      show ¬ c1.length > cfg by omega, show c1.length + c2.length > cfg by omega]
  · -- multipart part-header at
    intro B sb boundary cfg bs mb mf mv cu q fp hsb hsbpos hsble hpre hscan hparse hlen hbs
    have hl : 0 < B.length := by omega
    have hacc : FormConstraints.maxHeaderSize ⟨mb, cfg, mf, mv, cu⟩ bs = cfg := by
      unfold FormConstraints.maxHeaderSize
      rw [if_neg (show ¬ bs > cfg by omega)]
    subst hsb
    have hpre2 : strBytes ("--" ++ boundary ++ "\r\n") <+: B := by
      simpa using hpre
    unfold next_form_header
    simp [hacc, reads, nfhFetchGo, nfhScanGo, read_chunk, show ¬ B.length = 0 by omega,
      show ¬ (0 : Nat) ≥ (strBytes ("--" ++ boundary ++ "\r\n")).length by omega,
      hsble, hpre, hpre2, hscan, hparse,
      show ¬ B.length > cfg by omega, Res.bind]
  · -- multipart value over
    intro B field boundary bs mb mh mf cfg hB hlen
    have hl : 0 < B.length := List.length_pos.mpr hB
    have htm : strBytes ("\r\n--" ++ boundary) = 13 :: 10 :: 45 :: 45 :: strBytes boundary := by
      rw [strBytes_append]
      rfl
    unfold MultipartParser.parse_value
    simp [FormConstraints.maxSizeForField, alistGet, htm, reads, pvGo, findFirst,
      read_chunk, show ¬ B.length = 0 by omega, show B.length > cfg by omega]
  · -- multipart value at
    intro B tm field boundary bs mb mh mf cfg q htm hB hscan hlook hlen
    have hl : 0 < B.length := List.length_pos.mpr hB
    have htm' : tm = 13 :: 10 :: 45 :: 45 :: strBytes boundary := by
      rw [← htm, strBytes_append]
      rfl
    unfold MultipartParser.parse_value
    rw [show strBytes ("\r\n--" ++ boundary) = tm by rw [htm]]
    simp only [FormConstraints.maxSizeForField, alistGet, reads, pvGo, read_chunk,
      res_bind_eq, res_pure_eq, Res.bind_ok]
    rw [show findFirst tm ([] : List Byte) = none by rw [htm']; rfl]
    simp only [read_chunk, show ¬ B.length = 0 by omega, hscan,
      show ¬ (0 : Nat) > cfg by omega, show ¬ B.length > cfg by omega,
      show B.length ≥ q + tm.length + 4 by omega,
      if_false, if_true, ite_false, ite_true, Res.bind_ok]
    by_cases hc : List.take 4 (List.drop (q + tm.length) B) = strBytes "--\r\n"
    · simp [hc, Res.isOk, show ¬ B.length = 0 by omega, hscan,
        show ¬ (0 : Nat) > cfg by omega, show ¬ B.length > cfg by omega,
        show B.length ≥ q + tm.length + 4 by omega, read_chunk]
    · simp [hc, Res.isOk, show ¬ B.length = 0 by omega, hscan,
        show ¬ (0 : Nat) > cfg by omega, show ¬ B.length > cfg by omega,
        show B.length ≥ q + tm.length + 4 by omega, read_chunk]
  · -- multipart file over
    intro B field fname boundary bs mb mh mv cfg hB hlen
    have hl : 0 < B.length := List.length_pos.mpr hB
    have htm : strBytes ("\r\n--" ++ boundary) = 13 :: 10 :: 45 :: 45 :: strBytes boundary := by
      rw [strBytes_append]
      rfl
    unfold MultipartParser.parse_file
    simp [FormConstraints.maxSizeForFile, alistGet, htm, reads, pfGo, findFirst,
      read_chunk, show ¬ B.length = 0 by omega, show B.length > cfg by omega]
  · -- multipart file at
    intro B tm field fname boundary bs mb mh mv cfg q htm hB hscan hlook hlen
    have hl : 0 < B.length := List.length_pos.mpr hB
    have htm' : tm = 13 :: 10 :: 45 :: 45 :: strBytes boundary := by
      rw [← htm, strBytes_append]
      rfl
    unfold MultipartParser.parse_file
    rw [show strBytes ("\r\n--" ++ boundary) = tm by rw [htm]]
    simp only [FormConstraints.maxSizeForFile, alistGet, reads, pfGo, read_chunk,
      res_bind_eq, res_pure_eq, Res.bind_ok]
    rw [show findFirst tm ([] : List Byte) = none by rw [htm']; rfl]
    by_cases hc : List.take 4 (List.drop (q + tm.length) B) = strBytes "--\r\n"
    · simp [hc, Res.isOk, show ¬ B.length = 0 by omega, hscan,
        show ¬ (0 : Nat) > cfg by omega, show ¬ B.length > cfg by omega,
        show ¬ ([] : List Byte).length > tm.length by simp,
        show B.length ≥ q + tm.length + 4 by omega, read_chunk]
    · simp [hc, Res.isOk, show ¬ B.length = 0 by omega, hscan,
        show ¬ (0 : Nat) > cfg by omega, show ¬ B.length > cfg by omega,
        show ¬ ([] : List Byte).length > tm.length by simp,
        show B.length ≥ q + tm.length + 4 by omega, read_chunk]
  · -- urlencoded body over
    intro s mh mf mv cu cfg hbs
    have hacc : FormConstraints.maxBodySize ⟨cfg, mh, mf, mv, cu⟩ s.bufSize = cfg := by
      unfold FormConstraints.maxBodySize
      rw [if_neg (show ¬ s.bufSize > cfg by omega)]
    unfold read_query_params_from_stream
    rw [hacc]
    simp
  · -- urlencoded body at
    intro B bs mh mf mv cu cfg m hB hlen hbs hpos hparse
    have hl : 0 < B.length := List.length_pos.mpr hB
    have hacc : FormConstraints.maxBodySize ⟨cfg, mh, mf, mv, cu⟩ bs = cfg := by
      unfold FormConstraints.maxBodySize
      rw [if_neg (show ¬ bs > cfg by omega)]
    unfold read_query_params_from_stream
    rw [hacc]
    simp [reads, uepGo, read_chunk, show ¬ cfg > cfg by omega,
      show ¬ (0 : Nat) ≥ cfg by omega, show ¬ B.length = 0 by omega,
      show B.length ≥ cfg by omega, hparse]

theorem C4_size_ceilings_witness :
    read_request_headers
        ⟨none, [(strBytes "GET / HTTP/1.1\r\nHost: x\r\n\r\n").take 26,
                (strBytes "GET / HTTP/1.1\r\nHost: x\r\n\r\n").drop 26], 1⟩ ⟨26, 100⟩
      = .err .HeaderSizeExceed ∧
    read_request_headers ⟨none, [strBytes "GET / HTTP/1.1\r\nHost: x\r\n\r\n"], 1⟩ ⟨27, 100⟩
      = .ok (⟨some "GET", some 1, some "/",
            [("Host", strBytes "x")].foldl (fun h nv => Headers.setMultiple h nv.1 nv.2) []⟩,
          restore_payload ⟨none, [], 1⟩
            ((strBytes "GET / HTTP/1.1\r\nHost: x\r\n\r\n").drop 27)) ∧
    next_form_header
        ⟨⟨none, [(strBytes "--B\r\nContent-Disposition: form-data; name=\"a\"\r\n\r\n").take 48,
                 (strBytes "--B\r\nContent-Disposition: form-data; name=\"a\"\r\n\r\n").drop 48],
          1⟩, ⟨9, 48, 9, 9, []⟩, "B", true, false⟩
      = .err .MaxHeaderSizeExceed ∧
    next_form_header
        ⟨⟨none, [strBytes "--B\r\nContent-Disposition: form-data; name=\"a\"\r\n\r\n"], 1⟩,
          ⟨9, 49, 9, 9, []⟩, "B", true, false⟩
      = .ok (⟨some "a", none, none, none, none⟩,
          ⟨restore_payload ⟨none, [], 1⟩
              (((strBytes "--B\r\nContent-Disposition: form-data; name=\"a\"\r\n\r\n").drop
                  (strBytes "--B\r\n").length).drop (40 + 4)),
            ⟨9, 49, 9, 9, []⟩, "B", false, true⟩) ∧
    MultipartParser.parse_value
        ⟨⟨none, [strBytes "hello\r\n--B--\r\n"], 1⟩, ⟨9, 9, 9, 13, []⟩, "B", false, false⟩
        ⟨some "f", none, none, none, none⟩
      = .err (.MaxValueSizeExceed "f") ∧
    (MultipartParser.parse_value
        ⟨⟨none, [strBytes "hello\r\n--B--\r\n"], 1⟩, ⟨9, 9, 9, 14, []⟩, "B", false, false⟩
        ⟨some "f", none, none, none, none⟩).isOk = true ∧
    MultipartParser.parse_file
        ⟨⟨none, [strBytes "hello\r\n--B--\r\n"], 1⟩, ⟨9, 9, 13, 9, []⟩, "B", false, false⟩
        ⟨some "f", none, some "a.txt", none, none⟩
      = .err (.MaxFileSizeExceed "f") ∧
    (MultipartParser.parse_file
        ⟨⟨none, [strBytes "hello\r\n--B--\r\n"], 1⟩, ⟨9, 9, 14, 9, []⟩, "B", false, false⟩
        ⟨some "f", none, some "a.txt", none, none⟩).isOk = true ∧
    read_query_params_from_stream ⟨⟨none, [], 5⟩, ⟨5, 1, 1, 1, []⟩, 5 + 1⟩
      = .err .MaxBodySizeExceed ∧
    read_query_params_from_stream ⟨⟨none, [strBytes "a=1"], 1⟩, ⟨3, 1, 1, 1, []⟩, 3⟩
      = .ok ([("a", ["1"])], ⟨none, [], 1⟩) := by
  have h := C4_size_ceilings
  refine ⟨?_, ?_, ?_, ?_, ?_, ?_, ?_, ?_, ?_, ?_⟩
  · exact h.1 _ _ 26 100 1 (by decide) (by decide) (by decide) (by decide) (by decide)
  · exact h.2.1 _ 27 100 1 27 (some "GET") (some "/") (some 1) [("Host", strBytes "x")]
      (by decide) (by decide) (by decide) (by decide)
  · exact h.2.2.1 _ _ (strBytes "--B\r\n") "B" 48 1 9 9 9 []
      (by decide) (by decide) (by decide) (by decide) (by decide) (by decide) (by decide)
      (by decide)
  · exact h.2.2.2.1 _ (strBytes "--B\r\n") "B" 49 1 9 9 9 [] 40 ⟨some "a", none, none, none, none⟩
      (by decide) (by decide) (by decide) (by decide) (by decide) (by decide) (by decide)
      (by decide)
  · exact h.2.2.2.2.1 _ "f" "B" 1 9 9 9 13 (by decide) (by decide)
  · exact h.2.2.2.2.2.1 _ (strBytes "\r\n--B") "f" "B" 1 9 9 9 14 5
      (by decide) (by decide) (by decide) (by decide) (by decide)
  · exact h.2.2.2.2.2.2.1 _ "f" "a.txt" "B" 1 9 9 9 13 (by decide) (by decide)
  · exact h.2.2.2.2.2.2.2.1 _ (strBytes "\r\n--B") "f" "a.txt" "B" 1 9 9 9 14 5
      (by decide) (by decide) (by decide) (by decide) (by decide)
  · exact h.2.2.2.2.2.2.2.2.1 ⟨none, [], 5⟩ 1 1 1 [] 5 (by decide)
  · exact h.2.2.2.2.2.2.2.2.2 _ 1 1 1 1 [] 3 [("a", ["1"])]
      (by decide) (by decide) (by decide) (by decide) (by decide)

theorem C8_frame_roundtrip_witness :
    ((1 : Nat) < 2 ∧ (1 : Nat) < 16 ∧ (List.replicate 65536 (7 : Nat)).length < 2 ^ 64 ∧
      (List.replicate 65536 (7 : Nat)).length ≤ 70000) ∧
    read_frame ⟨none, [build ⟨1, 1, List.replicate 65536 7⟩], 4096⟩ 70000
      = Res.ok (⟨1, 1, List.replicate 65536 7⟩, ⟨none, [], 4096⟩) := by
  refine ⟨⟨by decide, by decide, ?_, ?_⟩, ?_⟩
  · rw [List.length_replicate]
    norm_num
  · rw [List.length_replicate]
    norm_num
  · exact C8_frame_roundtrip 1 1 (List.replicate 65536 7) 70000 4096
      (by decide) (by decide) (by rw [List.length_replicate]; norm_num)
      (by rw [List.length_replicate]; norm_num)

end Racoon
